import Mathlib

/-!
Verification of the SIMION potential-array module (`SIMION/PA.py`).

The Python class `PA` is embedded as a Lean structure `PA` holding the
header fields and the flat point store.  Python floats are modelled as
exact rationals (`ℚ`); machine floating point is not modelled, so all
"within floating tolerance" statements are settled as exact equalities
of the corresponding rational computations.  Python integer coordinates
are `ℤ`, grid dimensions are `ℕ`.

Each accessor of the Python class becomes a pure function (getters) or a
state transformer `PA → ... → PA` (setters).  Python `assert` statements
guarding the accessors (bounds checks, parameter checks) are not executed
inside the transformers; instead every theorem about a call carries the
assert's condition as a hypothesis, so the theorems speak only about the
calls that the Python code completes without raising.
-/

/-- Python `int()` truncation toward zero, on rationals. -/
def pyint (q : ℚ) : ℤ := if 0 ≤ q then ⌊q⌋ else ⌈q⌉

/-- State of a `PA` instance: header fields (`_mode`, `_symmetry`, ...) plus
the flat point store `_points` (length `nx*ny*nz`, index `(z*ny+y)*nx+x`).
`symmetry` and `field_type` are kept as the literal Python strings.
The unused `_enable_points` flag and the save-time `_pasharp` reference are
omitted (no claim touches them); the `_error` slot holds the last checker
message. -/
structure PA where
  mode : ℤ
  symmetry : String
  max_voltage : ℚ
  nx : ℕ
  ny : ℕ
  nz : ℕ
  mirror_x : Bool
  mirror_y : Bool
  mirror_z : Bool
  field_type : String
  ng : ℚ
  dx_mm : ℚ
  dy_mm : ℚ
  dz_mm : ℚ
  fast_adjustable : Bool
  error : Option String
  points : List ℚ
  deriving Repr, DecidableEq

/-- Fresh planar electrostatic array with the constructor's default header
values (`mode=-1`, `max_voltage=100000`, `ng=100`, unit spacings, no
mirroring) and a zero-filled point store. -/
def mkPA (nx ny nz : ℕ) : PA :=
  { mode := -1
    symmetry := "planar"
    max_voltage := 100000
    nx := nx, ny := ny, nz := nz
    mirror_x := false, mirror_y := false, mirror_z := false
    field_type := "electrostatic"
    ng := 100
    dx_mm := 1, dy_mm := 1, dz_mm := 1
    fast_adjustable := false
    error := none
    points := List.replicate (nx * ny * nz) 0 }

/-- Flat index `(z*ny + y)*nx + x` used by every point accessor. -/
def PA.pos (pa : PA) (x y z : ℤ) : ℤ :=
  (z * pa.ny + y) * pa.nx + x

/-- `inside(x,y,z)`: strict integer range test on each axis. -/
def PA.inside (pa : PA) (x y z : ℤ) : Bool :=
  decide (0 ≤ x) && decide (x < pa.nx) &&
  decide (0 ≤ y) && decide (y < pa.ny) &&
  decide (0 ≤ z) && decide (z < pa.nz)

/-- `raw(x,y,z)` getter: the stored value `_points[pos]`.  (In-bounds access
is guaranteed by the caller's `assert inside`; out-of-range reads return the
junk value 0 here and are excluded by hypotheses in all theorems.) -/
def PA.rawAt (pa : PA) (x y z : ℤ) : ℚ :=
  pa.points.getD (pa.pos x y z).toNat 0

/-- `raw(x,y,z,val)` setter: store `val` directly. -/
def PA.raw_set (pa : PA) (x y z : ℤ) (v : ℚ) : PA :=
  { pa with points := pa.points.set (pa.pos x y z).toNat v }

/-- `electrode(x,y,z)` getter: electrode iff stored value exceeds
`max_voltage`. -/
def PA.electrode_get (pa : PA) (x y z : ℤ) : Bool :=
  decide (pa.max_voltage < pa.rawAt x y z)

/-- `electrode(x,y,z,is_electrode)` setter: enabling adds `2*max_voltage`
when the point is not already an electrode, disabling subtracts it when it
is; a same-state set leaves the stored value untouched. -/
def PA.electrode_set (pa : PA) (x y z : ℤ) (is_el : Bool) : PA :=
  let v := pa.rawAt x y z
  if pa.max_voltage < v then
    if is_el then pa else pa.raw_set x y z (v - 2 * pa.max_voltage)
  else
    if is_el then pa.raw_set x y z (v + 2 * pa.max_voltage) else pa

/-- `max_voltage(max_voltage)` setter body: replace the threshold and add
`diff = 2*new - 2*old` to every stored value that exceeds the old
threshold.  (The Python loop runs over indices `0..nx*ny*nz-1`; on the
consistent states considered by the theorems this equals the store length,
so it is rendered as a map over the store.) -/
def PA.max_voltage_set (pa : PA) (mv : ℚ) : PA :=
  { pa with
    max_voltage := mv
    points := pa.points.map fun v =>
      if pa.max_voltage < v then v + (-2 * pa.max_voltage + 2 * mv) else v }

/-- `potential(x,y,z)` getter: decode the stored value (subtract
`2*max_voltage` when flagged as electrode). -/
def PA.potential_get (pa : PA) (x y z : ℤ) : ℚ :=
  let v := pa.rawAt x y z
  if pa.max_voltage < v then v - 2 * pa.max_voltage else v

/-- `point(x,y,z)` getter: `(is_electrode, potential)` decoded from the
stored value. -/
def PA.point_get (pa : PA) (x y z : ℤ) : Bool × ℚ :=
  let v := pa.rawAt x y z
  if pa.max_voltage < v then (true, v - 2 * pa.max_voltage) else (false, v)

/-- `point(x,y,z,is_electrode,potential)` setter: when the new potential
exceeds `max_voltage`, first raise `max_voltage` to twice the potential
(rescaling the whole store); then store the potential, offset by
`2*max_voltage` when the electrode flag is requested. -/
def PA.point_set (pa : PA) (x y z : ℤ) (is_el : Bool) (p : ℚ) : PA :=
  let pa1 := if pa.max_voltage < p then pa.max_voltage_set (p * 2) else pa
  let v := if is_el then p + 2 * pa1.max_voltage else p
  { pa1 with points := pa1.points.set (pa1.pos x y z).toNat v }

/-- `potential(x,y,z,potential)` setter: like `point_set` but the electrode
flag is the point's current flag, sampled before any `max_voltage` raise. -/
def PA.potential_set (pa : PA) (x y z : ℤ) (p : ℚ) : PA :=
  let is_el := pa.max_voltage < pa.rawAt x y z
  let pa1 := if pa.max_voltage < p then pa.max_voltage_set (p * 2) else pa
  let v := if is_el then p + 2 * pa1.max_voltage else p
  { pa1 with points := pa1.points.set (pa1.pos x y z).toNat v }

/-- `size(nx,ny,nz)` effect after its `check` assert: install the new
dimensions and reinitialize the store to zeros. -/
def PA.size_set (pa : PA) (nx ny nz : ℕ) : PA :=
  { pa with nx := nx, ny := ny, nz := nz
            points := List.replicate (nx * ny * nz) 0 }

/-- `_set_field(x,y,z,fx,fy,fz)`: one step of the trapezoidal line-integral
reconstruction of `V` from `E = -grad V`.  For magnetic arrays the field is
first divided by `ng`; then each forward neighbor that exists gets the
matching component subtracted from its provisional stored value, and the
current point is finalized from its already-final backward neighbors. -/
def PA.set_field (pa : PA) (x y z : ℤ) (fx0 fy0 fz0 : ℚ) : PA :=
  let fx := if pa.field_type = "magnetic" then fx0 / pa.ng else fx0
  let fy := if pa.field_type = "magnetic" then fy0 / pa.ng else fy0
  let fz := if pa.field_type = "magnetic" then fz0 / pa.ng else fz0
  let pa := if x ≠ (pa.nx : ℤ) - 1 then
      pa.point_set (x+1) y z false (pa.rawAt (x+1) y z - fx) else pa
  let pa := if y ≠ (pa.ny : ℤ) - 1 then
      pa.point_set x (y+1) z false (pa.rawAt x (y+1) z - fy) else pa
  let pa := if z ≠ (pa.nz : ℤ) - 1 then
      pa.point_set x y (z+1) false (pa.rawAt x y (z+1) - fz) else pa
  if x ≠ 0 ∧ y ≠ 0 ∧ z ≠ 0 then
    pa.point_set x y z false
      ((pa.potential_get (x-1) y z + pa.potential_get x (y-1) z +
        pa.potential_get x y (z-1)) / 3 +
       (pa.rawAt x y z - fx - fy - fz) / 6)
  else if x ≠ 0 ∧ y ≠ 0 then
    pa.point_set x y z false
      ((pa.potential_get (x-1) y z + pa.potential_get x (y-1) z) / 2 +
       (pa.rawAt x y z - fx - fy) / 4)
  else if x ≠ 0 ∧ z ≠ 0 then
    pa.point_set x y z false
      ((pa.potential_get (x-1) y z + pa.potential_get x y (z-1)) / 2 +
       (pa.rawAt x y z - fx - fz) / 4)
  else if y ≠ 0 ∧ z ≠ 0 then
    pa.point_set x y z false
      ((pa.potential_get x (y-1) z + pa.potential_get x y (z-1)) / 2 +
       (pa.rawAt x y z - fy - fz) / 4)
  else if z ≠ 0 then
    pa.point_set x y z false
      (pa.potential_get x y (z-1) + (pa.rawAt x y z - fz) / 2)
  else if y ≠ 0 then
    pa.point_set x y z false
      (pa.potential_get x (y-1) z + (pa.rawAt x y z - fy) / 2)
  else if x ≠ 0 then
    pa.point_set x y z false
      (pa.potential_get (x-1) y z + (pa.rawAt x y z - fx) / 2)
  else
    pa.point_set x y z false 0

/-- Drive the field setter over the whole grid in lexicographic scan order
(outer z, then y, then x, each ascending from 0) with the constant field
`(1, 0, 0)` — the usage pattern required by the `field` setter's contract. -/
def PA.driveConstEx (pa : PA) : PA :=
  (List.range pa.nz).foldl
    (fun pa1 z =>
      (List.range pa1.ny).foldl
        (fun pa2 y =>
          (List.range pa2.nx).foldl
            (fun pa3 x => pa3.set_field (x : ℤ) (y : ℤ) (z : ℤ) 1 0 0)
            pa2)
        pa1)
    pa

/-- `check_mode`: valid modes are -1 and -2; otherwise the recorded error
message. -/
def checkMode (mode : ℤ) : Option String :=
  if mode ≠ -1 ∧ mode ≠ -2 then
    some ("Mode (" ++ toString mode ++ ") is out of range.")
  else none

/-- `check_symmetry`: valid symmetries are "planar" and "cylindrical". -/
def checkSymmetry (symmetry : String) : Option String :=
  if symmetry ≠ "planar" ∧ symmetry ≠ "cylindrical" then
    some ("Symmetry (" ++ symmetry ++ ") must be planar or cylindrical.")
  else none

/-- `check_max_voltage`: must be nonnegative. -/
def checkMaxVoltage (mv : ℚ) : Option String :=
  if mv < 0 then some "Max voltage is out of range." else none

/-- `check_field_type`: valid field types are "electrostatic" and
"magnetic". -/
def checkFieldType (ft : String) : Option String :=
  if ft ≠ "electrostatic" ∧ ft ≠ "magnetic" then
    some ("Field type (" ++ ft ++ ") must be electrostatic or magnetic.")
  else none

/-- `check_ng`: must be nonnegative. -/
def checkNg (ng : ℚ) : Option String :=
  if ng < 0 then some "Magnetic scaling factor must be no less than 0." else none

/-- `check_nx`: `3 ≤ nx ≤ 90000`. -/
def checkNx (nx : ℤ) : Option String :=
  if nx < 3 then some ("nx value (" ++ toString nx ++ ") must be no less than 3.")
  else if nx > 90000 then
    some ("nx value (" ++ toString nx ++ ") must be no greater than 90000.")
  else none

/-- `check_ny`: `3 ≤ ny ≤ 90000`. -/
def checkNy (ny : ℤ) : Option String :=
  if ny < 3 then some ("ny value (" ++ toString ny ++ ") must be no less than 3.")
  else if ny > 90000 then
    some ("ny value (" ++ toString ny ++ ") must be no greater than 90000.")
  else none

/-- `check_nz`: `1 ≤ nz ≤ 90000`. -/
def checkNz (nz : ℤ) : Option String :=
  if nz < 1 then some ("nz value (" ++ toString nz ++ ") must be no less than 1.")
  else if nz > 90000 then
    some ("nz value (" ++ toString nz ++ ") must be no greater than 90000.")
  else none

/-- `check_size`: each dimension individually valid and the product at most
200 million. -/
def checkSize (nx ny nz : ℤ) : Option String :=
  match checkNx nx with
  | some e => some e
  | none =>
  match checkNy ny with
  | some e => some e
  | none =>
  match checkNz nz with
  | some e => some e
  | none =>
  if nx * ny * nz > 200000000 then some "exceeds 200 million points." else none

/-- `_parse_mirror`: match the mirror string against `x? y? z?`; `none` when
the regex fails (the Python code then stops with an assertion error). -/
def parseMirror (s : String) : Option (Bool × Bool × Bool) :=
  let cs := s.toList
  let (mx, cs) := match cs with
    | 'x' :: r => (true, r)
    | _ => (false, cs)
  let (my, cs) := match cs with
    | 'y' :: r => (true, r)
    | _ => (false, cs)
  let (mz, cs) := match cs with
    | 'z' :: r => (true, r)
    | _ => (false, cs)
  if cs.isEmpty then some (mx, my, mz) else none

/-- The named parameters of `check(...)`; `none` models an omitted (Python
`None`) parameter.  The accepted-but-never-examined parameters
(`fast_adjustable`, `enable_points`, `file`) are omitted. -/
structure CheckArgs where
  mode : Option ℤ := none
  field_type : Option String := none
  symmetry : Option String := none
  mirror : Option String := none
  mirror_x : Option Bool := none
  mirror_y : Option Bool := none
  mirror_z : Option Bool := none
  nx : Option ℤ := none
  ny : Option ℤ := none
  nz : Option ℤ := none
  max_voltage : Option ℚ := none
  ng : Option ℚ := none
  dx_mm : Option ℚ := none
  dy_mm : Option ℚ := none
  dz_mm : Option ℚ := none
  deriving Repr, DecidableEq

/-- Outcome of a `check(...)` call: `res pass pa` is a normal boolean return
together with the post-call instance (whose `_error` slot holds the recorded
message when `pass = false`); `pyError` marks the calls on which the Python
code itself dies with an uncaught `TypeError`/`AssertionError` (comparing
`None` with an integer inside `check_size`, or an unparsable mirror
string). -/
inductive CheckResult where
  | pyError : CheckResult
  | res : Bool → PA → CheckResult
  deriving Repr, DecidableEq

/-- The boolean returned by a `check` call (`pyError` counts as no
return). -/
def CheckResult.passed : CheckResult → Bool
  | .pyError => false
  | .res b _ => b

/-- The last-error slot after a `check` call. -/
def CheckResult.errMsg : CheckResult → Option String
  | .pyError => none
  | .res _ pa => pa.error

/-- Record a failure: write the message into the `_error` slot and return
false. -/
def PA.checkFail (pa : PA) (msg : String) : CheckResult :=
  .res false { pa with error := some msg }

/-- Final cross-field constraints of `check`: cylindrical symmetry needs
y mirroring and `nz = 1`; z mirroring needs `nz > 1`. -/
def PA.checkCross (pa : PA) (symmetry : Option String)
    (_mx my mz : Option Bool) (nz : Option ℤ) : CheckResult :=
  if symmetry = some "cylindrical" ∧ my = some false then
    pa.checkFail "y mirroring must be enabled under cylindrical symmetry."
  else if symmetry = some "cylindrical" ∧ nz ≠ some 1 ∧ nz ≠ none then
    pa.checkFail "nz must be 1 under cylindrical symmetry."
  else if mz = some true ∧ nz = some 1 then
    pa.checkFail "nz cannot be 1 under z mirroring."
  else
    .res true pa

/-- Continuation of `check` after the size checks: spacing checks, the
mirror-string alias, and the cross-field symmetry constraints. -/
def PA.checkTail (pa : PA) (a : CheckArgs) : CheckResult :=
  match a.dx_mm.bind (fun v =>
      if v < 1e-6 then some "dx_mm value must be no less than 1e-6."
      else if v > 900 then some "dx_mm value must be no greater than 900."
      else none) with
  | some e => pa.checkFail e
  | none =>
  match a.dy_mm.bind (fun v =>
      if v < 1e-6 then some "dy_mm value must be no less than 1e-6."
      else if v > 900 then some "dy_mm value must be no greater than 900."
      else none) with
  | some e => pa.checkFail e
  | none =>
  match a.dz_mm.bind (fun v =>
      if v < 1e-6 then some "dz_mm value must be no less than 1e-6."
      else if v > 900 then some "dz_mm value must be no greater than 900."
      else none) with
  | some e => pa.checkFail e
  | none =>
  match a.mirror with
  | some m =>
    if a.mirror_x.isSome then
      pa.checkFail "mirror and mirror_x named parameters cannot coexist."
    else if a.mirror_y.isSome then
      pa.checkFail "mirror and mirror_y named parameters cannot coexist."
    else if a.mirror_z.isSome then
      pa.checkFail "mirror and mirror_z named parameters cannot coexist."
    else
      match parseMirror m with
      | none => .pyError
      | some (mx, my, mz) =>
        pa.checkCross a.symmetry (some mx) (some my) (some mz) a.nz
  | none => pa.checkCross a.symmetry a.mirror_x a.mirror_y a.mirror_z a.nz

/-- `check(...)`: validate any subset of attributes in the order of the
Python source, recording the first failing check's message in the
`_error` slot. -/
def PA.check (pa : PA) (a : CheckArgs) : CheckResult :=
  match a.mode.bind checkMode with
  | some e => pa.checkFail e
  | none =>
  match a.symmetry.bind checkSymmetry with
  | some e => pa.checkFail e
  | none =>
  match a.max_voltage.bind checkMaxVoltage with
  | some e => pa.checkFail e
  | none =>
  match a.field_type.bind checkFieldType with
  | some e => pa.checkFail e
  | none =>
  match a.ng.bind checkNg with
  | some e => pa.checkFail e
  | none =>
  match a.nx.bind checkNx with
  | some e => pa.checkFail e
  | none =>
  match a.ny.bind checkNy with
  | some e => pa.checkFail e
  | none =>
  match a.nz.bind checkNz with
  | some e => pa.checkFail e
  | none =>
  match a.nx with
  | some nxv =>
    match a.ny, a.nz with
    | some nyv, some nzv =>
      match checkSize nxv nyv nzv with
      | some e => pa.checkFail e
      | none => pa.checkTail a
    | _, _ => .pyError
  | none => pa.checkTail a

set_option maxRecDepth 40000 in
/-- C1: on a planar `nz=1`, `nx=5`, `ny=3` array that starts fully zeroed and
non-electrode, calling the field setter once per point in lexicographic scan
order with the constant field `Ex=1, Ey=0, Ez=0` reconstructs
`potential(x,0,0) = -x` (exactly, in the rational model) for every
`x ∈ [0,4]`, with the origin's potential exactly 0 and no electrode flag set
anywhere by the routine. -/
theorem C1_field_reconstruction :
    ((List.range 5).all fun x =>
        (mkPA 5 3 1).driveConstEx.potential_get (x : ℤ) 0 0 == -(x : ℚ)) = true ∧
    (mkPA 5 3 1).driveConstEx.potential_get 0 0 0 = 0 ∧
    ((List.range 5).all fun x => (List.range 3).all fun y =>
        (mkPA 5 3 1).driveConstEx.electrode_get (x : ℤ) (y : ℤ) 0 == false) = true := by
  with_unfolding_all decide

/-- C7: the invariant checker returns false and records an error message for
each of `check(symmetry='cylindrical', nz=2)`,
`check(symmetry='cylindrical', mirror_y=0)` and `check(mirror_z=1, nz=1)`. -/
theorem C7_check_symmetry_constraints :
    (((mkPA 3 3 1).check { symmetry := some "cylindrical", nz := some 2 }).passed = false ∧
     ((mkPA 3 3 1).check { symmetry := some "cylindrical", nz := some 2 }).errMsg ≠ none) ∧
    (((mkPA 3 3 1).check { symmetry := some "cylindrical", mirror_y := some false }).passed = false ∧
     ((mkPA 3 3 1).check { symmetry := some "cylindrical", mirror_y := some false }).errMsg ≠ none) ∧
    (((mkPA 3 3 1).check { mirror_z := some true, nz := some 1 }).passed = false ∧
     ((mkPA 3 3 1).check { mirror_z := some true, nz := some 1 }).errMsg ≠ none) := by
  refine ⟨⟨?_, ?_⟩, ⟨?_, ?_⟩, ⟨?_, ?_⟩⟩ <;>
    simp [PA.check, PA.checkTail, PA.checkCross, PA.checkFail, checkMode, checkSymmetry,
          checkMaxVoltage, checkFieldType, checkNg, checkNx, checkNy, checkNz, checkSize,
          CheckResult.passed, CheckResult.errMsg]

/-- C9: after a successful `size(nx,ny,nz)` (its `check` assert passing), and
with the data-model invariant `max_voltage ≥ 0`, every in-bounds point of the
resized array reads as `(false, 0.0)`: all prior flags and potentials are
discarded and the store is reinitialized to zero non-electrode values. -/
theorem C9_size_clears_points (pa : PA) (nx ny nz : ℕ) (x y z : ℕ)
    (_hchk : pa.check
      { symmetry := some pa.symmetry, mirror_x := some pa.mirror_x,
        mirror_y := some pa.mirror_y, mirror_z := some pa.mirror_z,
        nx := some (nx : ℤ), ny := some (ny : ℤ), nz := some (nz : ℤ) }
      = .res true pa)
    (hmv : 0 ≤ pa.max_voltage)
    (_hx : x < nx) (_hy : y < ny) (_hz : z < nz) :
    (pa.size_set nx ny nz).point_get (x : ℤ) (y : ℤ) (z : ℤ) = (false, 0) := by
  simp [PA.size_set, PA.point_get, PA.rawAt, PA.pos]
  exact hmv

/-- Concrete instantiation of `C9_size_clears_points`: resizing the default
3×3×1 array to 3×4×1 leaves point (1,2,0) reading `(false, 0)`. -/
theorem C9_size_clears_points_witness :
    ((mkPA 3 3 1).size_set 3 4 1).point_get 1 2 0 = (false, 0) :=
  C9_size_clears_points (mkPA 3 3 1) 3 4 1 1 2 0
    (by simp [PA.check, PA.checkTail, PA.checkCross, checkMode, checkSymmetry,
              checkMaxVoltage, checkFieldType, checkNg, checkNx, checkNy, checkNz,
              checkSize, mkPA])
    (by norm_num [mkPA]) (by decide) (by decide) (by decide)

/-- The flat index of natural-number coordinates is the natural number
`(z*ny + y)*nx + x`. -/
lemma PA.pos_natCast (pa : PA) (x y z : ℕ) :
    (pa.pos (x : ℤ) (y : ℤ) (z : ℤ)).toNat = (z * pa.ny + y) * pa.nx + x := by
  have h : pa.pos (x : ℤ) (y : ℤ) (z : ℤ) = ((z * pa.ny + y) * pa.nx + x : ℕ) := by
    simp only [PA.pos]; push_cast; ring
  rw [h, Int.toNat_natCast]

/-- In-bounds coordinates give a flat index below `nx*ny*nz`. -/
lemma flatIdx_lt (nx ny nz x y z : ℕ) (hx : x < nx) (hy : y < ny) (hz : z < nz) :
    (z * ny + y) * nx + x < nx * ny * nz := by
  have h1 : z * ny + y + 1 ≤ ny * nz := by
    have h3 : (z + 1) * ny ≤ nz * ny := Nat.mul_le_mul_right _ (by omega)
    have h4 : (z + 1) * ny = z * ny + ny := by ring
    have h5 : nz * ny = ny * nz := by ring
    omega
  calc (z * ny + y) * nx + x < (z * ny + y + 1) * nx := by
        have : (z * ny + y + 1) * nx = (z * ny + y) * nx + nx := by ring
        omega
    _ ≤ (ny * nz) * nx := Nat.mul_le_mul_right _ h1
    _ = nx * ny * nz := by ring

/-- Reading a mapped list at an in-range index applies the function to the
original entry. -/
lemma getD_map_lt (f : ℚ → ℚ) (l : List ℚ) (n : ℕ) (h : n < l.length) :
    (l.map f).getD n 0 = f (l.getD n 0) := by
  rw [List.getD_eq_getElem _ _ (by simpa using h), List.getD_eq_getElem _ _ h,
      List.getElem_map]

/-- Reading back an in-range `List.set` returns the written value. -/
lemma getD_set_self (l : List ℚ) (n : ℕ) (v : ℚ) (h : n < l.length) :
    (l.set n v).getD n 0 = v := by
  rw [List.getD_eq_getElem _ _ (by simpa using h)]
  simp [List.getElem_set]

/-- C3: raising `max_voltage` from M to a larger M2 adds exactly `2*(M2-M)`
to the stored raw value of every in-bounds electrode point, leaves every
non-electrode raw value unchanged, and leaves every decoded potential
unchanged. -/
theorem C3_max_voltage_rescale (pa : PA) (mv2 : ℚ) (x y z : ℕ)
    (hlt : pa.max_voltage < mv2) (_hpos : 0 ≤ mv2)
    (hlen : pa.points.length = pa.nx * pa.ny * pa.nz)
    (hx : x < pa.nx) (hy : y < pa.ny) (hz : z < pa.nz) :
    (pa.electrode_get (x : ℤ) (y : ℤ) (z : ℤ) = true →
      (pa.max_voltage_set mv2).rawAt (x : ℤ) (y : ℤ) (z : ℤ)
        = pa.rawAt (x : ℤ) (y : ℤ) (z : ℤ) + 2 * (mv2 - pa.max_voltage)) ∧
    (pa.electrode_get (x : ℤ) (y : ℤ) (z : ℤ) = false →
      (pa.max_voltage_set mv2).rawAt (x : ℤ) (y : ℤ) (z : ℤ)
        = pa.rawAt (x : ℤ) (y : ℤ) (z : ℤ)) ∧
    (pa.max_voltage_set mv2).potential_get (x : ℤ) (y : ℤ) (z : ℤ)
      = pa.potential_get (x : ℤ) (y : ℤ) (z : ℤ) := by
  have hn : (pa.pos (x : ℤ) (y : ℤ) (z : ℤ)).toNat < pa.points.length := by
    rw [PA.pos_natCast, hlen]; exact flatIdx_lt _ _ _ _ _ _ hx hy hz
  have hmap : (pa.max_voltage_set mv2).rawAt (x : ℤ) (y : ℤ) (z : ℤ)
      = (fun v => if pa.max_voltage < v then v + (-2 * pa.max_voltage + 2 * mv2) else v)
          (pa.rawAt (x : ℤ) (y : ℤ) (z : ℤ)) := by
    unfold PA.rawAt PA.max_voltage_set
    exact getD_map_lt _ _ _ hn
  by_cases hel : pa.max_voltage < pa.rawAt (x : ℤ) (y : ℤ) (z : ℤ)
  · refine ⟨fun _ => ?_, fun hco => ?_, ?_⟩
    · rw [hmap]; simp [hel]; ring
    · exfalso; simp [PA.electrode_get, hel] at hco
    · have hv2 : (pa.max_voltage_set mv2).rawAt (x : ℤ) (y : ℤ) (z : ℤ)
          = pa.rawAt (x : ℤ) (y : ℤ) (z : ℤ) + (-2 * pa.max_voltage + 2 * mv2) := by
        rw [hmap]; simp [hel]
      simp only [PA.potential_get]
      rw [hv2, show (pa.max_voltage_set mv2).max_voltage = mv2 from rfl]
      have h1 : mv2 < pa.rawAt (x : ℤ) (y : ℤ) (z : ℤ) + (-2 * pa.max_voltage + 2 * mv2) := by
        linarith
      rw [if_pos h1, if_pos hel]
      ring
  · refine ⟨fun hco => ?_, fun _ => ?_, ?_⟩
    · exfalso; simp [PA.electrode_get, hel] at hco
    · rw [hmap]; simp [hel]
    · have hv2 : (pa.max_voltage_set mv2).rawAt (x : ℤ) (y : ℤ) (z : ℤ)
          = pa.rawAt (x : ℤ) (y : ℤ) (z : ℤ) := by rw [hmap]; simp [hel]
      simp only [PA.potential_get]
      rw [hv2, show (pa.max_voltage_set mv2).max_voltage = mv2 from rfl]
      have h1 : ¬ mv2 < pa.rawAt (x : ℤ) (y : ℤ) (z : ℤ) := by
        push_neg at hel ⊢; linarith
      rw [if_neg h1, if_neg hel]

/-- Test array for the max-voltage rescale: threshold 10, one electrode
point (raw 25, potential 5) and one plain point (raw 3). -/
def paC3 : PA :=
  { mkPA 3 3 1 with max_voltage := 10, points := [25, 3] ++ List.replicate 7 0 }

/-- Concrete instantiation of `C3_max_voltage_rescale`: raising 10 to 20 on
`paC3`. -/
theorem C3_max_voltage_rescale_witness :
    (paC3.electrode_get 0 0 0 = true →
      (paC3.max_voltage_set 20).rawAt 0 0 0 = paC3.rawAt 0 0 0 + 2 * (20 - paC3.max_voltage)) ∧
    (paC3.electrode_get 0 0 0 = false →
      (paC3.max_voltage_set 20).rawAt 0 0 0 = paC3.rawAt 0 0 0) ∧
    (paC3.max_voltage_set 20).potential_get 0 0 0 = paC3.potential_get 0 0 0 :=
  C3_max_voltage_rescale paC3 20 0 0 0 (by norm_num [paC3, mkPA]) (by norm_num)
    (by simp [paC3, mkPA]) (by simp [paC3, mkPA]) (by simp [paC3, mkPA]) (by simp [paC3, mkPA])

/-- `raw` writes do not touch `max_voltage`. -/
lemma PA.raw_set_max_voltage (pa : PA) (x y z : ℤ) (v : ℚ) :
    (pa.raw_set x y z v).max_voltage = pa.max_voltage := rfl

/-- Reading back an in-bounds `raw` write returns the written value. -/
lemma PA.rawAt_raw_set_self (pa : PA) (x y z : ℤ) (v : ℚ)
    (h : (pa.pos x y z).toNat < pa.points.length) :
    (pa.raw_set x y z v).rawAt x y z = v := by
  show (pa.points.set (pa.pos x y z).toNat v).getD (pa.pos x y z).toNat 0 = v
  exact getD_set_self _ _ _ h

/-- C4 (amended): for an in-bounds non-electrode point with potential
`0 ≤ p < max_voltage`, setting electrode=true then reading yields `(true,p)`;
for an electrode point *whose raw value is at most `3*max_voltage`* (the
unambiguous zone: decoded potential at most `max_voltage`), toggling the
electrode flag off then on restores the original raw value; and setting a
point's flag to the state it already has never changes the state.  The
original claim asserted the toggle property for every electrode point, which
fails for raw values above `3*max_voltage`
(`C4_electrode_encoding_counterexample`). -/
theorem C4_electrode_encoding_amended (pa : PA) (x y z : ℕ)
    (hlen : pa.points.length = pa.nx * pa.ny * pa.nz)
    (hx : x < pa.nx) (hy : y < pa.ny) (hz : z < pa.nz) :
    (pa.electrode_get (x : ℤ) (y : ℤ) (z : ℤ) = false →
      0 ≤ pa.rawAt (x : ℤ) (y : ℤ) (z : ℤ) →
      pa.rawAt (x : ℤ) (y : ℤ) (z : ℤ) < pa.max_voltage →
      (pa.electrode_set (x : ℤ) (y : ℤ) (z : ℤ) true).point_get (x : ℤ) (y : ℤ) (z : ℤ)
        = (true, pa.rawAt (x : ℤ) (y : ℤ) (z : ℤ))) ∧
    (pa.electrode_get (x : ℤ) (y : ℤ) (z : ℤ) = true →
      pa.rawAt (x : ℤ) (y : ℤ) (z : ℤ) ≤ 3 * pa.max_voltage →
      ((pa.electrode_set (x : ℤ) (y : ℤ) (z : ℤ) false).electrode_set
          (x : ℤ) (y : ℤ) (z : ℤ) true).rawAt (x : ℤ) (y : ℤ) (z : ℤ)
        = pa.rawAt (x : ℤ) (y : ℤ) (z : ℤ)) ∧
    pa.electrode_set (x : ℤ) (y : ℤ) (z : ℤ) (pa.electrode_get (x : ℤ) (y : ℤ) (z : ℤ)) = pa := by
  have hn : (pa.pos (x : ℤ) (y : ℤ) (z : ℤ)).toNat < pa.points.length := by
    rw [PA.pos_natCast, hlen]; exact flatIdx_lt _ _ _ _ _ _ hx hy hz
  set v := pa.rawAt (x : ℤ) (y : ℤ) (z : ℤ) with hv
  refine ⟨?_, ?_, ?_⟩
  · intro hflag h0 hp
    simp only [PA.electrode_get, decide_eq_false_iff_not, not_lt, ← hv] at hflag
    have hstep : pa.electrode_set (x : ℤ) (y : ℤ) (z : ℤ) true
        = pa.raw_set (x : ℤ) (y : ℤ) (z : ℤ) (v + 2 * pa.max_voltage) := by
      simp only [PA.electrode_set, ← hv, if_neg (not_lt.mpr hflag), if_pos]
    rw [hstep]
    have hget := PA.rawAt_raw_set_self pa (x : ℤ) (y : ℤ) (z : ℤ)
      (v + 2 * pa.max_voltage) hn
    simp only [PA.point_get, hget, PA.raw_set_max_voltage]
    rw [if_pos (by linarith)]
    refine Prod.ext rfl ?_
    show v + 2 * pa.max_voltage - 2 * pa.max_voltage = v
    ring
  · intro hflag hdec
    simp only [PA.electrode_get, decide_eq_true_eq, ← hv] at hflag
    have hstep1 : pa.electrode_set (x : ℤ) (y : ℤ) (z : ℤ) false
        = pa.raw_set (x : ℤ) (y : ℤ) (z : ℤ) (v - 2 * pa.max_voltage) := by
      simp only [PA.electrode_set, ← hv, if_pos hflag]
      simp
    rw [hstep1]
    have hget1 := PA.rawAt_raw_set_self pa (x : ℤ) (y : ℤ) (z : ℤ)
      (v - 2 * pa.max_voltage) hn
    have hstep2 : (pa.raw_set (x : ℤ) (y : ℤ) (z : ℤ)
          (v - 2 * pa.max_voltage)).electrode_set (x : ℤ) (y : ℤ) (z : ℤ) true
        = (pa.raw_set (x : ℤ) (y : ℤ) (z : ℤ) (v - 2 * pa.max_voltage)).raw_set
            (x : ℤ) (y : ℤ) (z : ℤ) (v - 2 * pa.max_voltage + 2 * pa.max_voltage) := by
      simp only [PA.electrode_set, hget1, PA.raw_set_max_voltage, if_true]
      rw [if_neg (by linarith : ¬ pa.max_voltage < v - 2 * pa.max_voltage)]
    rw [hstep2]
    have hn2 : ((pa.raw_set (x : ℤ) (y : ℤ) (z : ℤ) (v - 2 * pa.max_voltage)).pos
        (x : ℤ) (y : ℤ) (z : ℤ)).toNat
        < (pa.raw_set (x : ℤ) (y : ℤ) (z : ℤ) (v - 2 * pa.max_voltage)).points.length := by
      show (pa.pos (x : ℤ) (y : ℤ) (z : ℤ)).toNat
        < (pa.points.set (pa.pos (x : ℤ) (y : ℤ) (z : ℤ)).toNat (v - 2 * pa.max_voltage)).length
      simpa using hn
    rw [PA.rawAt_raw_set_self _ _ _ _ _ hn2]
    ring
  · by_cases h : pa.max_voltage < v
    · simp [PA.electrode_set, PA.electrode_get, ← hv, h]
    · simp [PA.electrode_set, PA.electrode_get, ← hv, h]

/-- Array refuting the unrestricted toggle claim of C4: threshold 10 with a
stored raw value 40 at the origin (an electrode whose decoded potential 20
itself exceeds the threshold). -/
def paC4x : PA :=
  { mkPA 3 3 1 with max_voltage := 10, points := 40 :: List.replicate 8 0 }

/-- C4 counterexample: on `paC4x` the origin is an electrode point, yet
setting electrode=false and then electrode=true leaves raw value 20 where
the original raw value was 40 — toggling off-then-on is not idempotent on
the raw value for every electrode point. -/
theorem C4_electrode_encoding_counterexample :
    paC4x.electrode_get 0 0 0 = true ∧
    ((paC4x.electrode_set 0 0 0 false).electrode_set 0 0 0 true).rawAt 0 0 0 = 20 ∧
    paC4x.rawAt 0 0 0 = 40 := by
  with_unfolding_all decide

/-- Test array for the C4 witness: threshold 10, a plain point with
potential 5 at the origin and an electrode point with raw value 25 at
(1,0,0). -/
def paC4w : PA :=
  { mkPA 3 3 1 with max_voltage := 10, points := [5, 25] ++ List.replicate 7 0 }

/-- Concrete instantiation of `C4_electrode_encoding_amended` on `paC4w`. -/
theorem C4_electrode_encoding_witness :
    ((paC4w.electrode_set 0 0 0 true).point_get 0 0 0 = (true, paC4w.rawAt 0 0 0)) ∧
    (((paC4w.electrode_set 1 0 0 false).electrode_set 1 0 0 true).rawAt 1 0 0
      = paC4w.rawAt 1 0 0) ∧
    paC4w.electrode_set 0 0 0 (paC4w.electrode_get 0 0 0) = paC4w :=
  ⟨(C4_electrode_encoding_amended paC4w 0 0 0 (by simp [paC4w, mkPA]) (by decide)
      (by decide) (by decide)).1 (by with_unfolding_all decide)
      (by with_unfolding_all decide) (by with_unfolding_all decide),
   (C4_electrode_encoding_amended paC4w 1 0 0 (by simp [paC4w, mkPA]) (by decide)
      (by decide) (by decide)).2.1 (by with_unfolding_all decide)
      (by with_unfolding_all decide),
   (C4_electrode_encoding_amended paC4w 0 0 0 (by simp [paC4w, mkPA]) (by decide)
      (by decide) (by decide)).2.2⟩

/-- One axis of the planar `inside_real` test, as the code computes it:
nonnegative coordinates are tested against `dim-1` directly, negative ones
only when the axis is mirrored, via their negation. -/
def axisInside (dim : ℕ) (mir : Bool) (c : ℚ) : Bool :=
  if 0 ≤ c then decide (c ≤ (dim : ℚ) - 1)
  else if mir then decide (-c ≤ (dim : ℚ) - 1)
  else false

/-- `_inside_cylindrical_real(x, r)`: the x axis is tested as in planar and
the radius must satisfy `r ≤ ny - 1`.  The radius argument is passed as
`rsq = r^2` (the caller's `r = sqrt(y^2+z^2)` need not be rational), and
`r ≤ ny-1` is rendered by the equivalent square comparison
`0 ≤ ny-1 ∧ rsq ≤ (ny-1)^2` (see `Real.sqrt_le_iff`). -/
def PA.inside_cyl_real (pa : PA) (x rsq : ℚ) : Bool :=
  axisInside pa.nx pa.mirror_x x &&
  decide (0 ≤ (pa.ny : ℚ) - 1 ∧ rsq ≤ ((pa.ny : ℚ) - 1) ^ 2)

/-- `inside_real(x,y,z)`: planar arrays test x and y per axis and test z
only when `nz != 1` (a single-plane array has infinite z extent);
cylindrical arrays use the radius `sqrt(y^2+z^2)` in place of y and ignore
z otherwise. -/
def PA.inside_real (pa : PA) (x y z : ℚ) : Bool :=
  if pa.symmetry = "planar" then
    axisInside pa.nx pa.mirror_x x &&
    (axisInside pa.ny pa.mirror_y y &&
     (if pa.nz ≠ 1 then axisInside pa.nz pa.mirror_z z else true))
  else if pa.symmetry = "cylindrical" then
    pa.inside_cyl_real x (y * y + z * z)
  else false

/-- The per-axis acceptance rule exactly as the claim words it: the
coordinate lies in `[0, dim-1]`, or the axis is mirrored and the absolute
value is at most `dim-1`. -/
def axisInsideSpec (dim : ℕ) (mir : Bool) (c : ℚ) : Prop :=
  (0 ≤ c ∧ c ≤ (dim : ℚ) - 1) ∨ (mir = true ∧ |c| ≤ (dim : ℚ) - 1)

/-- The code's per-axis test agrees with the claim's per-axis rule. -/
lemma axisInside_iff_spec (dim : ℕ) (mir : Bool) (c : ℚ) :
    axisInside dim mir c = true ↔ axisInsideSpec dim mir c := by
  unfold axisInside axisInsideSpec
  by_cases h : 0 ≤ c
  · rw [if_pos h, abs_of_nonneg h]
    simp only [decide_eq_true_eq]
    constructor
    · intro hle; exact Or.inl ⟨h, hle⟩
    · rintro (⟨_, hle⟩ | ⟨_, hle⟩) <;> exact hle
  · rw [if_neg h, abs_of_neg (not_le.mp h)]
    cases mir <;> simp [h]

/-- C6 (amended): for planar arrays, `inside_real` applies the claim's
per-axis rule to x and y, but applies it to z only when `nz` is not 1 — a
single-plane planar array accepts every z (infinite extent), which the
original claim missed (`C6_inside_real_counterexample`).  For cylindrical
arrays the claim is as stated: x is tested per axis and the radius
`sqrt(y^2+z^2)` must be at most `ny-1`. -/
theorem C6_inside_real_amended (pa : PA) (x y z : ℚ) :
    (pa.symmetry = "planar" →
      (pa.inside_real x y z = true ↔
        (axisInsideSpec pa.nx pa.mirror_x x ∧ axisInsideSpec pa.ny pa.mirror_y y ∧
         (pa.nz = 1 ∨ axisInsideSpec pa.nz pa.mirror_z z)))) ∧
    (pa.symmetry = "cylindrical" →
      (pa.inside_real x y z = true ↔
        (axisInsideSpec pa.nx pa.mirror_x x ∧
         Real.sqrt ((y : ℝ) ^ 2 + (z : ℝ) ^ 2) ≤ (pa.ny : ℝ) - 1))) := by
  constructor
  · intro hp
    simp only [PA.inside_real, hp, if_pos, Bool.and_eq_true, axisInside_iff_spec]
    by_cases hnz : pa.nz = 1
    · simp [hnz]
    · simp [hnz, axisInside_iff_spec]
  · intro hc
    have hrw : pa.inside_real x y z = pa.inside_cyl_real x (y * y + z * z) := by
      rw [PA.inside_real, hc]
      norm_num
      intro hco
      exact absurd hco (by decide)
    rw [hrw, PA.inside_cyl_real, Bool.and_eq_true, axisInside_iff_spec, decide_eq_true_eq]
    have hs : Real.sqrt ((y : ℝ) ^ 2 + (z : ℝ) ^ 2) ≤ (pa.ny : ℝ) - 1 ↔
        (0 ≤ (pa.ny : ℚ) - 1 ∧ y * y + z * z ≤ ((pa.ny : ℚ) - 1) ^ 2) := by
      rw [Real.sqrt_le_iff]
      constructor
      · rintro ⟨h1, h2⟩
        constructor
        · have : (0 : ℝ) ≤ ((pa.ny : ℚ) : ℝ) - 1 := by push_cast; exact_mod_cast h1
          exact_mod_cast this
        · have : ((y * y + z * z : ℚ) : ℝ) ≤ ((((pa.ny : ℚ) - 1) ^ 2 : ℚ) : ℝ) := by
            push_cast
            nlinarith [h2]
          exact_mod_cast this
      · rintro ⟨h1, h2⟩
        constructor
        · have : ((0 : ℚ) : ℝ) ≤ (((pa.ny : ℚ) - 1 : ℚ) : ℝ) := by exact_mod_cast h1
          push_cast at this ⊢
          linarith
        · have : ((y * y + z * z : ℚ) : ℝ) ≤ ((((pa.ny : ℚ) - 1) ^ 2 : ℚ) : ℝ) := by
            exact_mod_cast h2
          push_cast at this ⊢
          nlinarith [this]
    rw [hs]

/-- `axisInsideSpec` is a decidable predicate. -/
instance axisInsideSpecDecidable (dim : ℕ) (mir : Bool) (c : ℚ) :
    Decidable (axisInsideSpec dim mir c) := by
  unfold axisInsideSpec; infer_instance

/-- C6 counterexample: on the default planar 3×3×1 array, the point
(0,0,5) is accepted by `inside_real` even though its z coordinate fails the
claim's per-axis rule (z=5 is outside [0, nz-1] = [0,0] and the z axis is
not mirrored). -/
theorem C6_inside_real_counterexample :
    (mkPA 3 3 1).inside_real 0 0 5 = true ∧
    ¬ axisInsideSpec (mkPA 3 3 1).nz (mkPA 3 3 1).mirror_z 5 := by
  constructor
  · with_unfolding_all decide
  · with_unfolding_all decide

/-- Concrete instantiation of the planar half of `C6_inside_real_amended`
at the point (1/2, 1, 0) of the default 3×3×1 array. -/
theorem C6_inside_real_witness :
    (mkPA 3 3 1).inside_real (1/2) 1 0 = true ↔
      (axisInsideSpec (mkPA 3 3 1).nx (mkPA 3 3 1).mirror_x (1/2) ∧
       axisInsideSpec (mkPA 3 3 1).ny (mkPA 3 3 1).mirror_y 1 ∧
       ((mkPA 3 3 1).nz = 1 ∨ axisInsideSpec (mkPA 3 3 1).nz (mkPA 3 3 1).mirror_z 0)) :=
  (C6_inside_real_amended (mkPA 3 3 1) (1/2) 1 0).1 rfl

/-- Python `int()` of a natural number is that number. -/
lemma pyint_natCast (n : ℕ) : pyint (n : ℚ) = n := by
  unfold pyint
  rw [if_pos (by positivity)]
  exact_mod_cast Int.floor_natCast n

/-- `potential_real(x,y,z)`: bilinear (2D) or trilinear (3D) interpolation
of the decoded potentials at the surrounding grid points of the effective
(mirror-folded) coordinates; a corner weight that vanishes suppresses the
corresponding (possibly out-of-edge) point read.  The cylindrical branch
interpolates over `(x, r)`; since the code's `r = sqrt(y*y+z*z)` need not be
rational, `r` is taken here as an extra argument (unused by the planar
branches), constrained to `r ≥ 0` and `r^2 = y^2+z^2` at the call sites. -/
def PA.potential_real (pa : PA) (x y z r : ℚ) : ℚ :=
  let xeff := |x|
  let yeff := |y|
  let zeff := |z|
  if pa.symmetry = "planar" then
    if pa.nz = 1 then
      let xi := pyint xeff
      let yi := pyint yeff
      let wx := xeff - xi
      let wy := yeff - yi
      (1-wx) * (1-wy) * pa.potential_get xi yi 0 +
      wx * (1-wy) * (if wx ≠ 0 then pa.potential_get (xi+1) yi 0 else 0) +
      (1-wx) * wy * (if wy ≠ 0 then pa.potential_get xi (yi+1) 0 else 0) +
      wx * wy * (if wx ≠ 0 ∧ wy ≠ 0 then pa.potential_get (xi+1) (yi+1) 0 else 0)
    else
      let xi := pyint xeff
      let yi := pyint yeff
      let zi := pyint zeff
      let wx := xeff - xi
      let wy := yeff - yi
      let wz := zeff - zi
      (1-wx)*(1-wy)*(1-wz) * pa.potential_get xi yi zi +
      wx*(1-wy)*(1-wz) * (if wx ≠ 0 then pa.potential_get (xi+1) yi zi else 0) +
      (1-wx)*wy*(1-wz) * (if wy ≠ 0 then pa.potential_get xi (yi+1) zi else 0) +
      wx*wy*(1-wz) * (if wx ≠ 0 ∧ wy ≠ 0 then pa.potential_get (xi+1) (yi+1) zi else 0) +
      (1-wx)*(1-wy)*wz * (if wz ≠ 0 then pa.potential_get xi yi (zi+1) else 0) +
      wx*(1-wy)*wz * (if wx ≠ 0 ∧ wz ≠ 0 then pa.potential_get (xi+1) yi (zi+1) else 0) +
      (1-wx)*wy*wz * (if wy ≠ 0 ∧ wz ≠ 0 then pa.potential_get xi (yi+1) (zi+1) else 0) +
      wx*wy*wz * (if wx ≠ 0 ∧ wy ≠ 0 ∧ wz ≠ 0 then
          pa.potential_get (xi+1) (yi+1) (zi+1) else 0)
  else if pa.symmetry = "cylindrical" then
    let xi := pyint xeff
    let ri := pyint r
    let wx := xeff - xi
    let wr := r - ri
    (1-wx) * (1-wr) * pa.potential_get xi ri 0 +
    wx * (1-wr) * (if wx ≠ 0 then pa.potential_get (xi+1) ri 0 else 0) +
    (1-wx) * wr * (if wr ≠ 0 then pa.potential_get xi (ri+1) 0 else 0) +
    wx * wr * (if wx ≠ 0 ∧ wr ≠ 0 then pa.potential_get (xi+1) (ri+1) 0 else 0)
  else 0

/-- C8: at in-bounds integer coordinates the interpolated
`potential_real(x,y,z)` equals the stored-point `potential(x,y,z)` exactly:
every fractional weight vanishes, so all out-of-edge corner terms are
suppressed and only the unit-weight corner remains.  Stated for planar
arrays and for cylindrical arrays with `nz = 1` (the cylindrical invariant);
`r` is the radius argument of `potential_real`, constrained to equal
`sqrt(y^2+z^2)`. -/
theorem C8_exact_interpolation_at_grid (pa : PA) (x y z : ℕ) (r : ℚ)
    (_hx : x < pa.nx) (_hy : y < pa.ny) (hz : z < pa.nz)
    (hsym : pa.symmetry = "planar" ∨ (pa.symmetry = "cylindrical" ∧ pa.nz = 1))
    (hr : 0 ≤ r ∧ r ^ 2 = (y : ℚ) ^ 2 + (z : ℚ) ^ 2) :
    pa.potential_real (x : ℚ) (y : ℚ) (z : ℚ) r
      = pa.potential_get (x : ℤ) (y : ℤ) (z : ℤ) := by
  have hax : |(x : ℚ)| = (x : ℚ) := abs_of_nonneg (by positivity)
  have hay : |(y : ℚ)| = (y : ℚ) := abs_of_nonneg (by positivity)
  have haz : |(z : ℚ)| = (z : ℚ) := abs_of_nonneg (by positivity)
  rcases hsym with hp | ⟨hc, hnz⟩
  · rw [PA.potential_real]
    rw [if_pos hp]
    by_cases hnz : pa.nz = 1
    · have hz0 : z = 0 := by omega
      subst hz0
      rw [if_pos hnz]
      simp only [hax, hay, pyint_natCast]
      have wx0 : (x : ℚ) - ((x : ℤ) : ℚ) = 0 := by push_cast; ring
      have wy0 : (y : ℚ) - ((y : ℤ) : ℚ) = 0 := by push_cast; ring
      rw [wx0, wy0]
      norm_num
    · rw [if_neg hnz]
      simp only [hax, hay, haz, pyint_natCast]
      have wx0 : (x : ℚ) - ((x : ℤ) : ℚ) = 0 := by push_cast; ring
      have wy0 : (y : ℚ) - ((y : ℤ) : ℚ) = 0 := by push_cast; ring
      have wz0 : (z : ℚ) - ((z : ℤ) : ℚ) = 0 := by push_cast; ring
      rw [wx0, wy0, wz0]
      norm_num
  · have hz0 : z = 0 := by omega
    subst hz0
    have hry : r = (y : ℚ) := by
      obtain ⟨h0, hsq⟩ := hr
      have hfac : (r - (y : ℚ)) * (r + (y : ℚ)) = 0 := by
        have : r ^ 2 - (y : ℚ) ^ 2 = 0 := by rw [hsq]; push_cast; ring
        nlinarith [this]
      rcases mul_eq_zero.mp hfac with h | h
      · linarith
      · have hyn : (0 : ℚ) ≤ (y : ℚ) := by positivity
        linarith
    subst hry
    rw [PA.potential_real]
    rw [if_neg (by rw [hc]; decide), if_pos hc]
    simp only [hax, hay, pyint_natCast]
    have wx0 : (x : ℚ) - ((x : ℤ) : ℚ) = 0 := by push_cast; ring
    have wy0 : (y : ℚ) - ((y : ℤ) : ℚ) = 0 := by push_cast; ring
    rw [wx0, wy0]
    norm_num

/-- Concrete instantiation of `C8_exact_interpolation_at_grid`: on `paC3`
(planar, 3×3×1), `potential_real` at the grid point (1,0,0) with radius 0
equals `potential(1,0,0)`. -/
theorem C8_exact_interpolation_at_grid_witness :
    paC3.potential_real 1 0 0 0 = paC3.potential_get 1 0 0 :=
  C8_exact_interpolation_at_grid paC3 1 0 0 0 (by decide) (by decide) (by decide)
    (Or.inl rfl) ⟨le_refl 0, by norm_num⟩

/-- The binary image of a PA file, field by field: the packed header values
(`struct.pack("iidiiii", ...)`), the optional mode ≤ -2 spacing triple, and
the point values.  Byte widths are tracked separately (`PA.saveLen` and the
`avail` argument of `loadPA`); integer fields are ℤ (the values written by
`save` on checker-valid arrays all fit in int32). -/
structure PAFile where
  mode : ℤ
  symmetry_int : ℤ
  max_voltage : ℚ
  nx : ℤ
  ny : ℤ
  nz : ℤ
  raw_mirror : ℤ
  spacings : Option (ℚ × ℚ × ℚ)
  points : List ℚ
  deriving Repr, DecidableEq

/-- The `mode()` getter: the reported mode is elevated to -2 when the
nominal mode is -1 but some grid spacing differs from 1. -/
def PA.mode_r (pa : PA) : ℤ :=
  if pa.mode = -1 ∧ (pa.dx_mm ≠ 1 ∨ pa.dy_mm ≠ 1 ∨ pa.dz_mm ≠ 1) then -2 else pa.mode

/-- `save(path)` without a paired PA# array (no statistics trailer): pack
the reported mode, the symmetry flag (1 = planar), `max_voltage`, the
dimensions, and the `raw_mirror` bitfield (bits 0-2 mirrors, bit 3 magnetic,
bits 4-20 `ng` when it is an integer in [1,90000], else 0); append the
spacing triple when the reported mode is ≤ -2, then all point values. -/
def PA.save (pa : PA) : PAFile :=
  { mode := pa.mode_r
    symmetry_int := if pa.symmetry = "planar" then 1 else 0
    max_voltage := pa.max_voltage
    nx := pa.nx
    ny := pa.ny
    nz := pa.nz
    raw_mirror :=
      (if pa.mirror_x then 1 else 0) + (if pa.mirror_y then 2 else 0) +
      (if pa.mirror_z then 4 else 0) + (if pa.field_type = "magnetic" then 8 else 0) +
      (if 1 ≤ pa.ng ∧ pa.ng ≤ 90000 ∧ pa.ng.den = 1 then pa.ng.num * 16 else 0)
    spacings := if pa.mode_r ≤ -2 then some (pa.dx_mm, pa.dy_mm, pa.dz_mm) else none
    points := pa.points }

/-- Number of bytes `save` writes: 32 header bytes, 24 optional spacing
bytes, 8 per point. -/
def PA.saveLen (pa : PA) : ℕ :=
  32 + (if pa.mode_r ≤ -2 then 24 else 0) + 8 * pa.points.length

/-- Result of a `load(path)` call: a loaded instance, a `PAError` raised
through the `except IOError` branch, a `PAError` raised through the
`except PAError` branch (the invalid-mode format error), or the uncaught
`struct.error` that escapes when a point-data row read comes back short. -/
inductive LoadOutcome where
  | ok : PA → LoadOutcome
  | ioError : String → LoadOutcome
  | formatError : String → LoadOutcome
  | structError : LoadOutcome
  deriving Repr, DecidableEq

/-- The `"Failed reading file ..."` wrapper that both except branches of
`load` put around the original message. -/
def wrapLoadMsg (path msg : String) : String :=
  "Failed reading file \"" ++ path ++ "\": " ++ msg

/-- The point-reading loop: each iteration issues `f.read(rowBytes)` and
unpacks it; a read that returns fewer than `rowBytes` bytes makes
`struct.unpack` fail.  Returns whether every row read came back full. -/
def readRows (rowBytes : ℕ) : ℕ → ℕ → Bool
  | 0, _ => true
  | k + 1, rem => if rem < rowBytes then false else readRows rowBytes k (rem - rowBytes)

/-- Iteration count of `range(0, num_points, nx)` for `nx > 0` (for
`nx < 0` the range is empty; `nx = 0` raises in Python and is modelled as
an empty loop, a case no theorem exercises). -/
def loadIters (nx num : ℤ) : ℕ :=
  if 0 < nx ∧ 0 < num then (num.toNat + nx.toNat - 1) / nx.toNat else 0

/-- The instance state installed by a successful `load`: header fields
decoded from the file (`raw_mirror` unpacked with `/` and `%` on ℤ,
whose floor-division semantics agree with Python's `>>` and `&`), `fast_adjustable` from the `#` filename suffix, and the
point store sliced row by row from the file. -/
def mkLoaded (f : PAFile) (sp : ℚ × ℚ × ℚ) (path : String) : PA :=
  { mode := f.mode
    symmetry := if f.symmetry_int ≠ 0 then "planar" else "cylindrical"
    max_voltage := f.max_voltage
    nx := f.nx.toNat
    ny := f.ny.toNat
    nz := f.nz.toNat
    mirror_x := decide (f.raw_mirror % 2 = 1)
    mirror_y := decide ((f.raw_mirror / 2) % 2 = 1)
    mirror_z := decide ((f.raw_mirror / 4) % 2 = 1)
    field_type := if (f.raw_mirror / 8) % 2 = 1 then "magnetic" else "electrostatic"
    ng := (((f.raw_mirror / 16) % 131072 : ℤ) : ℚ)
    dx_mm := sp.1
    dy_mm := sp.2.1
    dz_mm := sp.2.2
    fast_adjustable := path.endsWith "#"
    error := none
    points := (List.range (f.nx * f.ny * f.nz).toNat).map (fun i => f.points.getD i 0) }

/-- The point-loop phase of `load`: run the row reads against the bytes
remaining after the header; a short row escapes as an uncaught
struct.error. -/
def loadPoints (f : PAFile) (rem : ℕ) (path : String) (sp : ℚ × ℚ × ℚ) : LoadOutcome :=
  if readRows (8 * f.nx.toNat) (loadIters f.nx (f.nx * f.ny * f.nz)) rem then
    .ok (mkLoaded f sp path)
  else .structError

/-- `load(path)` on a file whose decoded field values are `f` and whose
byte length is `avail`: read the 4-byte mode (short → wrapped IOError),
reject modes other than -1 and -2 (wrapped PAError), read the remaining 28
header bytes, then the 24 spacing bytes when mode ≤ -2 (each short read →
wrapped IOError), then the point rows. -/
def loadPA (f : PAFile) (avail : ℕ) (path : String) : LoadOutcome :=
  if avail < 4 then .ioError (wrapLoadMsg path "Bytes missing from file.")
  else if f.mode ≠ -1 ∧ f.mode ≠ -2 then
    .formatError (wrapLoadMsg path ("invalid mode (" ++ toString f.mode ++ ")"))
  else if avail < 32 then .ioError (wrapLoadMsg path "Bytes missing from file.")
  else if f.mode ≤ -2 then
    if avail - 32 < 24 then .ioError (wrapLoadMsg path "Bytes missing from file.")
    else loadPoints f (avail - 32 - 24) path (f.spacings.getD (1, 1, 1))
  else loadPoints f (avail - 32) path (1, 1, 1)

/-- A well-formed mode -1 file image for the load error tests: 3×3×1
planar, 9 zero points, so the full byte length is 32 + 72 = 104. -/
def fileC5 : PAFile :=
  { mode := -1, symmetry_int := 1, max_voltage := 100000, nx := 3, ny := 3, nz := 1,
    raw_mirror := 0, spacings := none, points := List.replicate 9 0 }

/-- C5: evaluating `load` on truncated and malformed inputs.  A short read
inside the header (2 or 10 of the needed 32 bytes) raises the wrapped
I/O-failure `PAError` carrying the file path; a header with mode -3 raises
the wrapped format-error `PAError`; but a file whose *point data* is short
(100 of 104 bytes) escapes with an uncaught `struct.error` — not the
I/O-failure kind the claim (and `load`'s own docstring, which promises
`PAError` on error) requires. -/
theorem C5_load_error_kinds :
    loadPA fileC5 2 "t.pa" = .ioError (wrapLoadMsg "t.pa" "Bytes missing from file.") ∧
    loadPA fileC5 10 "t.pa" = .ioError (wrapLoadMsg "t.pa" "Bytes missing from file.") ∧
    loadPA { fileC5 with mode := -3 } 104 "t.pa"
      = .formatError (wrapLoadMsg "t.pa" ("invalid mode (" ++ toString (-3 : ℤ) ++ ")")) ∧
    loadPA fileC5 100 "t.pa" = .structError := by
  refine ⟨rfl, rfl, rfl, rfl⟩

/-- A readable file image whose header violates the invariant checker:
`nx = 2` is below the checker's minimum of 3.  Byte length 32 + 48 = 80. -/
def fileC10 : PAFile :=
  { mode := -1, symmetry_int := 1, max_voltage := 100000, nx := 2, ny := 3, nz := 1,
    raw_mirror := 0, spacings := none, points := List.replicate 6 0 }

/-- C10: `load` accepts any readable file whose mode is -1 or -2 and never
invokes the invariant checker: a file with `nx = 2` (which `check` rejects)
loads successfully and installs that invalid configuration as the instance
state. -/
theorem C10_load_skips_checker :
    ∃ pa2, loadPA fileC10 80 "t.pa0" = .ok pa2 ∧ pa2.nx = 2 ∧
      (pa2.check
        { symmetry := some pa2.symmetry, mirror_x := some pa2.mirror_x,
          mirror_y := some pa2.mirror_y, mirror_z := some pa2.mirror_z,
          nx := some (pa2.nx : ℤ), ny := some (pa2.ny : ℤ),
          nz := some (pa2.nz : ℤ) }).passed = false := by
  refine ⟨_, rfl, rfl, ?_⟩
  simp [PA.check, PA.checkTail, PA.checkCross, PA.checkFail, checkMode, checkSymmetry,
        checkMaxVoltage, checkFieldType, checkNg, checkNx, checkNy, checkNz, checkSize,
        CheckResult.passed, loadPA, loadPoints, mkLoaded, fileC10, loadIters, readRows]

/-- The row loop succeeds whenever the remaining bytes cover every row. -/
lemma readRows_of_le (rb : ℕ) : ∀ (k rem : ℕ), rb * k ≤ rem → readRows rb k rem = true := by
  intro k
  induction k with
  | zero => intro rem _; rfl
  | succ n ih =>
    intro rem h
    rw [readRows]
    have hmul : rb * (n + 1) = rb * n + rb := by ring
    rw [if_neg (by omega)]
    exact ih _ (by omega)

/-- Reading every index of a list back in order reproduces the list. -/
lemma map_range_getD (l : List ℚ) :
    (List.range l.length).map (fun i => l.getD i 0) = l := by
  apply List.ext_getElem
  · simp
  · intro i h1 h2
    simp only [List.getElem_map, List.getElem_range]
    rw [List.getD_eq_getElem _ _ h2]

/-- The ceiling division `range(0, n*m, n)` iteration count is exactly `m`. -/
lemma nat_div_exact_ceil (n m : ℕ) (hn : 0 < n) : (n * m + n - 1) / n = m := by
  have hc : n * m = m * n := Nat.mul_comm n m
  have h : n * m + n - 1 = (n - 1) + m * n := by omega
  rw [h, Nat.add_mul_div_right _ _ hn, Nat.div_eq_of_lt (by omega)]
  omega

/-- Unpacking the `raw_mirror` bitfield recovers each packed flag and the
17-bit `ng` value. -/
lemma rawMirror_decode (pA pB pC pD : Prop) [Decidable pA] [Decidable pB]
    [Decidable pC] [Decidable pD] (n : ℤ) (h0 : 0 ≤ n) (h1 : n ≤ 90000) :
    ((((if pA then (1:ℤ) else 0) + (if pB then 2 else 0) + (if pC then 4 else 0) +
        (if pD then 8 else 0) + n * 16) % 2 = 1) ↔ pA) ∧
    (((((if pA then (1:ℤ) else 0) + (if pB then 2 else 0) + (if pC then 4 else 0) +
        (if pD then 8 else 0) + n * 16) / 2) % 2 = 1) ↔ pB) ∧
    (((((if pA then (1:ℤ) else 0) + (if pB then 2 else 0) + (if pC then 4 else 0) +
        (if pD then 8 else 0) + n * 16) / 4) % 2 = 1) ↔ pC) ∧
    (((((if pA then (1:ℤ) else 0) + (if pB then 2 else 0) + (if pC then 4 else 0) +
        (if pD then 8 else 0) + n * 16) / 8) % 2 = 1) ↔ pD) ∧
    ((((if pA then (1:ℤ) else 0) + (if pB then 2 else 0) + (if pC then 4 else 0) +
        (if pD then 8 else 0) + n * 16) / 16) % 131072 = n) := by
  by_cases hA : pA <;> by_cases hB : pB <;> by_cases hC : pC <;> by_cases hD : pD <;>
    simp only [hA, hB, hC, hD, if_true, if_false, iff_true, iff_false,
      if_pos, if_neg, not_false_iff, eq_self_iff_true] <;>
    refine ⟨?_, ?_, ?_, ?_, ?_⟩ <;> omega

/-- A decidable proposition equivalent to `b = true` decides to `b`. -/
lemma decide_eq_of_iff (p : Prop) [Decidable p] (b : Bool) (h : p ↔ b = true) :
    decide p = b := by
  cases b
  · simp only [decide_eq_false_iff_not]
    intro hp
    exact absurd (h.mp hp) (by simp)
  · simp only [decide_eq_true_eq]
    exact h.mpr rfl

/-- The point-reading loop consumes exactly the bytes `save` wrote for the
point store, so it succeeds on a full-length file. -/
lemma loadPoints_save (pa : PA) (path : String) (sp : ℚ × ℚ × ℚ)
    (hlen : pa.points.length = pa.nx * pa.ny * pa.nz) :
    loadPoints pa.save (8 * pa.points.length) path sp
      = .ok (mkLoaded pa.save sp path) := by
  unfold loadPoints
  rw [if_pos]
  apply readRows_of_le
  have hfx : pa.save.nx = (pa.nx : ℤ) := rfl
  have hnum : pa.save.nx * pa.save.ny * pa.save.nz
      = ((pa.nx * pa.ny * pa.nz : ℕ) : ℤ) := by
    show ((pa.nx : ℤ)) * (pa.ny : ℤ) * (pa.nz : ℤ) = _
    push_cast
    ring
  rw [hnum, hfx]
  unfold loadIters
  by_cases hpos : 0 < (pa.nx : ℤ) ∧ 0 < ((pa.nx * pa.ny * pa.nz : ℕ) : ℤ)
  · rw [if_pos hpos]
    obtain ⟨h1, h2⟩ := hpos
    have hx0 : 0 < pa.nx := by exact_mod_cast h1
    have hxyz : 0 < pa.nx * pa.ny * pa.nz := by exact_mod_cast h2
    rw [Int.toNat_natCast, Int.toNat_natCast]
    have hfact : pa.nx * pa.ny * pa.nz = pa.nx * (pa.ny * pa.nz) := by ring
    rw [hfact, nat_div_exact_ceil _ _ hx0, hlen, hfact]
    have : 8 * pa.nx * (pa.ny * pa.nz) = 8 * (pa.nx * (pa.ny * pa.nz)) := by ring
    nlinarith
  · rw [if_neg hpos]
    simp

/-- Loading back what `save` wrote reproduces every header field (the
stored mode being the reported mode of the original) and the point store,
with `fast_adjustable` derived from the path, provided the array is
checker-well-formed and its `ng` is 0 or an integer in the encodable range
1..90000. -/
lemma mkLoaded_save_fields (pa : PA) (path : String) (sp : ℚ × ℚ × ℚ)
    (hsym : pa.symmetry = "planar" ∨ pa.symmetry = "cylindrical")
    (hft : pa.field_type = "electrostatic" ∨ pa.field_type = "magnetic")
    (hlen : pa.points.length = pa.nx * pa.ny * pa.nz)
    (hng : pa.ng = 0 ∨ (pa.ng.den = 1 ∧ 1 ≤ pa.ng ∧ pa.ng ≤ 90000)) :
    (mkLoaded pa.save sp path).mode = pa.mode_r ∧
    (mkLoaded pa.save sp path).symmetry = pa.symmetry ∧
    (mkLoaded pa.save sp path).max_voltage = pa.max_voltage ∧
    (mkLoaded pa.save sp path).nx = pa.nx ∧
    (mkLoaded pa.save sp path).ny = pa.ny ∧
    (mkLoaded pa.save sp path).nz = pa.nz ∧
    (mkLoaded pa.save sp path).mirror_x = pa.mirror_x ∧
    (mkLoaded pa.save sp path).mirror_y = pa.mirror_y ∧
    (mkLoaded pa.save sp path).mirror_z = pa.mirror_z ∧
    (mkLoaded pa.save sp path).field_type = pa.field_type ∧
    (mkLoaded pa.save sp path).ng = pa.ng ∧
    (mkLoaded pa.save sp path).dx_mm = sp.1 ∧
    (mkLoaded pa.save sp path).dy_mm = sp.2.1 ∧
    (mkLoaded pa.save sp path).dz_mm = sp.2.2 ∧
    (mkLoaded pa.save sp path).fast_adjustable = path.endsWith "#" ∧
    (mkLoaded pa.save sp path).points = pa.points := by
  obtain ⟨n, hn0, hn1, hterm, hrec⟩ :
      ∃ n : ℤ, 0 ≤ n ∧ n ≤ 90000 ∧
        (if 1 ≤ pa.ng ∧ pa.ng ≤ 90000 ∧ pa.ng.den = 1 then pa.ng.num * 16 else 0)
          = n * 16 ∧ ((n : ℚ) = pa.ng) := by
    rcases hng with h0 | ⟨hden, hlo, hhi⟩
    · refine ⟨0, le_refl 0, by norm_num, ?_, by rw [h0]; norm_num⟩
      rw [if_neg]
      · ring
      · rw [h0]; norm_num
    · have hq : ((pa.ng.num : ℤ) : ℚ) = pa.ng := by
        conv_rhs => rw [← Rat.num_div_den pa.ng]
        rw [hden]
        norm_num
      have hlo2 : 1 ≤ pa.ng.num := by
        have : ((1 : ℤ) : ℚ) ≤ ((pa.ng.num : ℤ) : ℚ) := by rw [hq]; exact_mod_cast hlo
        exact_mod_cast this
      have hhi2 : pa.ng.num ≤ 90000 := by
        have : ((pa.ng.num : ℤ) : ℚ) ≤ ((90000 : ℤ) : ℚ) := by rw [hq]; exact_mod_cast hhi
        exact_mod_cast this
      exact ⟨pa.ng.num, by omega, hhi2, by rw [if_pos ⟨hlo, hhi, hden⟩], hq⟩
  have hrm : pa.save.raw_mirror
      = (if pa.mirror_x then (1:ℤ) else 0) + (if pa.mirror_y then 2 else 0) +
        (if pa.mirror_z then 4 else 0) + (if pa.field_type = "magnetic" then 8 else 0) +
        n * 16 := by
    show (if pa.mirror_x then (1:ℤ) else 0) + (if pa.mirror_y then 2 else 0) +
        (if pa.mirror_z then 4 else 0) + (if pa.field_type = "magnetic" then 8 else 0) +
        (if 1 ≤ pa.ng ∧ pa.ng ≤ 90000 ∧ pa.ng.den = 1 then pa.ng.num * 16 else 0) = _
    rw [hterm]
  obtain ⟨hb1, hb2, hb3, hb4, hb5⟩ := rawMirror_decode (pa.mirror_x = true)
    (pa.mirror_y = true) (pa.mirror_z = true) (pa.field_type = "magnetic") n hn0 hn1
  refine ⟨rfl, ?_, rfl, ?_, ?_, ?_, ?_, ?_, ?_, ?_, ?_, rfl, rfl, rfl, rfl, ?_⟩
  · show (if pa.save.symmetry_int ≠ 0 then "planar" else "cylindrical") = pa.symmetry
    rcases hsym with h | h
    · rw [show pa.save.symmetry_int = 1 from by
        show (if pa.symmetry = "planar" then (1:ℤ) else 0) = 1
        rw [if_pos h]]
      rw [h]
      norm_num
    · rw [show pa.save.symmetry_int = 0 from by
        show (if pa.symmetry = "planar" then (1:ℤ) else 0) = 0
        rw [if_neg (by rw [h]; decide)]]
      rw [h]
      norm_num
  · exact Int.toNat_natCast pa.nx
  · exact Int.toNat_natCast pa.ny
  · exact Int.toNat_natCast pa.nz
  · show decide (pa.save.raw_mirror % 2 = 1) = pa.mirror_x
    rw [hrm]
    exact decide_eq_of_iff _ _ hb1
  · show decide ((pa.save.raw_mirror / 2) % 2 = 1) = pa.mirror_y
    rw [hrm]
    exact decide_eq_of_iff _ _ hb2
  · show decide ((pa.save.raw_mirror / 4) % 2 = 1) = pa.mirror_z
    rw [hrm]
    exact decide_eq_of_iff _ _ hb3
  · show (if (pa.save.raw_mirror / 8) % 2 = 1 then "magnetic" else "electrostatic")
      = pa.field_type
    rw [hrm]
    rcases hft with h | h
    · rw [if_neg, h]
      rw [hb4, h]
      decide
    · rw [if_pos, h]
      rw [hb4]
      exact h
  · show (((pa.save.raw_mirror / 16) % 131072 : ℤ) : ℚ) = pa.ng
    rw [hrm, hb5]
    exact hrec
  · show (List.range (pa.save.nx * pa.save.ny * pa.save.nz).toNat).map
        (fun i => pa.save.points.getD i 0) = pa.points
    have hnum : pa.save.nx * pa.save.ny * pa.save.nz
        = ((pa.nx * pa.ny * pa.nz : ℕ) : ℤ) := by
      show ((pa.nx : ℤ)) * (pa.ny : ℤ) * (pa.nz : ℤ) = _
      push_cast
      ring
    rw [hnum, Int.toNat_natCast, ← hlen]
    exact map_range_getD pa.points

/-- C2 (amended): for a checker-valid array whose `ng` is 0 or an integer
in the encodable range 1..90000, saving and re-loading reproduces every
header field — the mode compared as the reported (derived) mode — and every
point value, with the loaded `fast_adjustable` true exactly when the path
ends in `#`.  The original claim, quantified over every checker-valid
array, fails because `check_ng` accepts any `ng ≥ 0` while the writer can
only encode 17-bit integer values: see `C2_round_trip_counterexample`. -/
theorem C2_round_trip_amended (pa : PA) (path : String)
    (hmode : pa.mode = -1 ∨ pa.mode = -2)
    (hsym : pa.symmetry = "planar" ∨ pa.symmetry = "cylindrical")
    (hft : pa.field_type = "electrostatic" ∨ pa.field_type = "magnetic")
    (hlen : pa.points.length = pa.nx * pa.ny * pa.nz)
    (hng : pa.ng = 0 ∨ (pa.ng.den = 1 ∧ 1 ≤ pa.ng ∧ pa.ng ≤ 90000)) :
    ∃ pa2, loadPA pa.save pa.saveLen path = .ok pa2 ∧
      pa2.mode_r = pa.mode_r ∧
      pa2.symmetry = pa.symmetry ∧
      pa2.max_voltage = pa.max_voltage ∧
      pa2.nx = pa.nx ∧ pa2.ny = pa.ny ∧ pa2.nz = pa.nz ∧
      pa2.mirror_x = pa.mirror_x ∧ pa2.mirror_y = pa.mirror_y ∧
      pa2.mirror_z = pa.mirror_z ∧
      pa2.field_type = pa.field_type ∧
      pa2.ng = pa.ng ∧
      pa2.dx_mm = pa.dx_mm ∧ pa2.dy_mm = pa.dy_mm ∧ pa2.dz_mm = pa.dz_mm ∧
      (pa2.fast_adjustable = true ↔ path.endsWith "#" = true) ∧
      pa2.points = pa.points := by
  have hmr2 : pa.mode_r = -1 ∨ pa.mode_r = -2 := by
    unfold PA.mode_r
    split
    · exact Or.inr rfl
    · exact hmode
  have hsavemode : pa.save.mode = pa.mode_r := rfl
  by_cases hmr : pa.mode_r ≤ -2
  · -- reported mode is -2: spacings are written and read back
    have hsp : pa.save.spacings = some (pa.dx_mm, pa.dy_mm, pa.dz_mm) := by
      show (if pa.mode_r ≤ -2 then some (pa.dx_mm, pa.dy_mm, pa.dz_mm) else none) = _
      rw [if_pos hmr]
    have hLen : pa.saveLen = 32 + 24 + 8 * pa.points.length := by
      unfold PA.saveLen
      rw [if_pos hmr]
    have hload : loadPA pa.save pa.saveLen path
        = loadPoints pa.save (8 * pa.points.length) path
            (pa.dx_mm, pa.dy_mm, pa.dz_mm) := by
      unfold loadPA
      rw [hsavemode, hLen, hsp]
      rw [if_neg (by omega), if_neg (by rcases hmr2 with h | h <;> rw [h] <;> simp),
          if_neg (by omega), if_pos hmr, if_neg (by omega)]
      congr 1
      omega
    obtain ⟨h1, h2, h3, h4, h5, h6, h7, h8, h9, h10, h11, h12, h13, h14, h15, h16⟩ :=
      mkLoaded_save_fields pa path (pa.dx_mm, pa.dy_mm, pa.dz_mm) hsym hft hlen hng
    refine ⟨mkLoaded pa.save (pa.dx_mm, pa.dy_mm, pa.dz_mm) path,
      by rw [hload]; exact loadPoints_save pa path _ hlen,
      ?_, h2, h3, h4, h5, h6, h7, h8, h9, h10, h11, h12, h13, h14, by rw [h15], h16⟩
    -- derived mode of the loaded array: stored mode -2 reports as -2
    have hm2 : pa.mode_r = -2 := by omega
    rw [hm2]
    unfold PA.mode_r
    rw [h1, hm2]
    split <;> rfl
  · -- reported mode is -1: all spacings are 1 and load installs (1,1,1)
    have hm1 : pa.mode_r = -1 := by
      rcases hmr2 with h | h
      · exact h
      · omega
    have hmode1 : pa.mode = -1 := by
      rcases hmode with h | h
      · exact h
      · exfalso
        apply hmr
        unfold PA.mode_r
        rw [if_neg (by simp [h])]
        rw [h]
    have hsp1 : pa.dx_mm = 1 ∧ pa.dy_mm = 1 ∧ pa.dz_mm = 1 := by
      by_contra hco
      apply hmr
      unfold PA.mode_r
      rw [if_pos ⟨hmode1, by tauto⟩]
    have hLen : pa.saveLen = 32 + 8 * pa.points.length := by
      unfold PA.saveLen
      rw [if_neg hmr]
    have hload : loadPA pa.save pa.saveLen path
        = loadPoints pa.save (8 * pa.points.length) path (1, 1, 1) := by
      unfold loadPA
      rw [hsavemode, hLen]
      rw [if_neg (by omega), if_neg (by rw [hm1]; simp), if_neg (by omega),
          if_neg (by omega)]
      congr 1
      omega
    obtain ⟨h1, h2, h3, h4, h5, h6, h7, h8, h9, h10, h11, h12, h13, h14, h15, h16⟩ :=
      mkLoaded_save_fields pa path (1, 1, 1) hsym hft hlen hng
    refine ⟨mkLoaded pa.save (1, 1, 1) path,
      by rw [hload]; exact loadPoints_save pa path _ hlen,
      ?_, h2, h3, h4, h5, h6, h7, h8, h9, h10, h11,
      by rw [h12, hsp1.1], by rw [h13, hsp1.2.1], by rw [h14, hsp1.2.2],
      by rw [h15], h16⟩
    rw [hm1]
    unfold PA.mode_r
    rw [h1, hm1, h12, h13, h14]
    rw [if_neg (by norm_num)]

/-- A checker-valid array whose `ng` (90001) lies outside the encodable
range 1..90000. -/
def paC2x : PA := { mkPA 3 3 1 with ng := 90001 }

/-- C2 counterexample: `paC2x` passes `check_ng` (its `ng` 90001 is ≥ 0),
yet saving and loading it yields `ng = 0` — the round trip does not
preserve every header field for every valid array. -/
theorem C2_round_trip_counterexample :
    loadPA paC2x.save paC2x.saveLen "t.pa"
      = .ok (mkLoaded paC2x.save (1, 1, 1) "t.pa") ∧
    (mkLoaded paC2x.save (1, 1, 1) "t.pa").ng = 0 ∧
    paC2x.ng = 90001 ∧ checkNg paC2x.ng = none := by
  have hsm : ("electrostatic" : String) ≠ "magnetic" := by decide
  refine ⟨?_, ?_, rfl, ?_⟩
  · norm_num [loadPA, loadPoints, mkLoaded, paC2x, mkPA, PA.save, PA.saveLen,
      PA.mode_r, loadIters, readRows, hsm, Int.toNat_natCast,
      show Int.toNat 3 = 3 by omega, show Int.toNat 9 = 9 by omega]
  · norm_num [mkLoaded, paC2x, mkPA, PA.save, PA.mode_r, hsm, Int.toNat_natCast,
      show Int.toNat 3 = 3 by omega, show Int.toNat 9 = 9 by omega]
  · norm_num [checkNg, paC2x, mkPA]

/-- Concrete instantiation of `C2_round_trip_amended`: the default 3×3×1
array saved to a `#`-suffixed path round-trips on every field. -/
theorem C2_round_trip_witness :
    ∃ pa2, loadPA (mkPA 3 3 1).save (mkPA 3 3 1).saveLen "t.pa#" = .ok pa2 ∧
      pa2.mode_r = (mkPA 3 3 1).mode_r ∧
      pa2.symmetry = (mkPA 3 3 1).symmetry ∧
      pa2.max_voltage = (mkPA 3 3 1).max_voltage ∧
      pa2.nx = (mkPA 3 3 1).nx ∧ pa2.ny = (mkPA 3 3 1).ny ∧ pa2.nz = (mkPA 3 3 1).nz ∧
      pa2.mirror_x = (mkPA 3 3 1).mirror_x ∧ pa2.mirror_y = (mkPA 3 3 1).mirror_y ∧
      pa2.mirror_z = (mkPA 3 3 1).mirror_z ∧
      pa2.field_type = (mkPA 3 3 1).field_type ∧
      pa2.ng = (mkPA 3 3 1).ng ∧
      pa2.dx_mm = (mkPA 3 3 1).dx_mm ∧ pa2.dy_mm = (mkPA 3 3 1).dy_mm ∧
      pa2.dz_mm = (mkPA 3 3 1).dz_mm ∧
      (pa2.fast_adjustable = true ↔ ("t.pa#" : String).endsWith "#" = true) ∧
      pa2.points = (mkPA 3 3 1).points :=
  C2_round_trip_amended (mkPA 3 3 1) "t.pa#" (Or.inl rfl) (Or.inl rfl) (Or.inl rfl)
    (by simp [mkPA]) (Or.inr ⟨by norm_num [mkPA], by norm_num [mkPA], by norm_num [mkPA]⟩)
